import Mathlib

/- Verification of the triSYCL ACAP MathEngine cascade-stream infrastructure
   (include/CL/sycl/vendor/Xilinx/acap/me/cascade_stream.hpp) and of the
   AI Engine tile base (include/CL/sycl/vendor/Xilinx/acap/aie/tile_base.hpp),
   as a shallow embedding in Lean 4. -/

namespace TriSYCL

/-- Modelled from the spec: the `Geography` contract (geography.hpp is not
among the sources at hand); it supplies the grid extents `x_size` (number of
columns) and `y_size` (number of rows). -/
structure Geography where
  x_size : Nat
  y_size : Nat
deriving DecidableEq, Repr

/-- Modelled from the spec: the geography's largest column index,
`x_max = x_size - 1`. -/
def Geography.x_max (g : Geography) : Nat := g.x_size - 1

/-- Modelled from the spec: the geography's largest row index,
`y_max = y_size - 1`. -/
def Geography.y_max (g : Geography) : Nat := g.y_size - 1

/-- Embedding of `cascade_stream::get_cascade_stream_in` (cascade_stream.hpp):
the index into `cascade_stream_pipes` used for the cascade input of tile
(x, y), namely `geo::x_size*y + ((y & 1) ? geo::x_max - x : x)`. -/
def get_cascade_stream_in (g : Geography) (x y : Nat) : Nat :=
  g.x_size * y + (if y &&& 1 ≠ 0 then g.x_max - x else x)

/-- Embedding of `cascade_stream::get_cascade_stream_out` (cascade_stream.hpp):
the index into `cascade_stream_pipes` used for the cascade output of tile
(x, y), namely `geo::x_size*y + 1 + ((y & 1) ? geo::x_max - x : x)`. -/
def get_cascade_stream_out (g : Geography) (x y : Nat) : Nat :=
  g.x_size * y + 1 + (if y &&& 1 ≠ 0 then g.x_max - x else x)

/-- Modelled from the spec: the `static_pipe` channel primitive (its
implementation is not among the sources at hand): a bounded, ordered FIFO
queue of `int` elements with a fixed capacity; `cascade_stream` instantiates
it as `cl::sycl::static_pipe<int, 4>`. The queue content is the list of
elements in write order, oldest first. -/
structure static_pipe where
  capacity : Nat
  buffer : List Int
deriving DecidableEq, Repr

/-- An empty `static_pipe` of the capacity used by `cascade_stream`. -/
def static_pipe.empty4 : static_pipe := ⟨4, []⟩

/-- Access mode of a channel operation: blocking or non-blocking. -/
inductive Mode where
  | blocking
  | nonblocking
deriving DecidableEq, Repr

/-- Modelled from the spec: a write to the channel.  A non-blocking write
succeeds exactly when room exists and then appends the element; a blocking
write suspends while the channel is full, so in this sequential view (no
concurrent reader can free a slot) it completes, with the same append,
exactly when room exists.  `none` means the operation did not complete
successfully. -/
def static_pipe.write : Mode → static_pipe → Int → Option static_pipe
  | .blocking, p, v =>
      if p.buffer.length < p.capacity then
        some { p with buffer := p.buffer ++ [v] } else none
  | .nonblocking, p, v =>
      if p.buffer.length < p.capacity then
        some { p with buffer := p.buffer ++ [v] } else none

/-- Modelled from the spec: a read from the channel.  A non-blocking read
reports not-ready on an empty channel and otherwise removes and returns the
oldest element; a blocking read suspends while the channel is empty, so in
this sequential view it completes, with the same removal, exactly when the
channel is non-empty. -/
def static_pipe.read : Mode → static_pipe → Option (Int × static_pipe)
  | .blocking, p =>
      match p.buffer with
      | [] => none
      | v :: rest => some (v, { p with buffer := rest })
  | .nonblocking, p =>
      match p.buffer with
      | [] => none
      | v :: rest => some (v, { p with buffer := rest })

/-- Perform a sequence of writes, each with its own access mode; succeeds
only if every write succeeds. -/
def static_pipe.writeSeq (p : static_pipe) : List (Mode × Int) → Option static_pipe
  | [] => some p
  | (m, v) :: rest => (p.write m v).bind (fun p2 => p2.writeSeq rest)

/-- Perform a sequence of reads, one per listed access mode; succeeds only if
every read succeeds, and returns the elements in the order read. -/
def static_pipe.readSeq (p : static_pipe) : List Mode → Option (List Int × static_pipe)
  | [] => some ([], p)
  | m :: rest =>
      (p.read m).bind (fun r =>
        (r.2.readSeq rest).map (fun q => (r.1 :: q.1, q.2)))

/-- Embedding of the `cascade_stream_pipes` member of `cascade_stream`
(cascade_stream.hpp): an array of `static_pipe` channels whose declared size
is `geo::x_size*geo::y_size + 1`. -/
structure cascade_stream (g : Geography) where
  cascade_stream_pipes : List static_pipe
  size_eq : cascade_stream_pipes.length = g.x_size * g.y_size + 1

/-- Modelled from the spec: the AXI stream switch of a tile
(axi_stream_switch.hpp is not among the sources at hand): it holds two fixed
collections of ports, inputs and outputs, each port backed by a bounded
queue; the members are called `in` and `out` in the source. -/
structure axi_stream_switch where
  in_ports : List static_pipe
  out_ports : List static_pipe
deriving DecidableEq, Repr

/-- Embedding of `tile_base` (tile_base.hpp): the infrastructure common to
all tiles, one thread handle (abstracted as an identifier) and one AXI
stream switch instance. -/
structure tile_base where
  thread : Nat
  axi_ss : axi_stream_switch
deriving DecidableEq, Repr

/-- Embedding of `tile_base::in` (tile_base.hpp, `axi_ss.in[port].in<T>()`):
obtain a read access handle on input port `port` of the tile's stream switch.
Modelled from the spec on the missing switch side: an out-of-range port index
fails with an out-of-range condition instead of returning a handle. -/
def tile_base.in_port (t : tile_base) (port : Nat) : Except String static_pipe :=
  if h : port < t.axi_ss.in_ports.length then
    Except.ok (t.axi_ss.in_ports.get ⟨port, h⟩)
  else
    Except.error "out-of-range input port index"

/-- Embedding of `tile_base::out` (tile_base.hpp, `axi_ss.out[port].out<T>()`):
obtain a write access handle on output port `port` of the tile's stream
switch. Modelled from the spec on the missing switch side: an out-of-range
port index fails with an out-of-range condition instead of returning a
handle. -/
def tile_base.out_port (t : tile_base) (port : Nat) : Except String static_pipe :=
  if h : port < t.axi_ss.out_ports.length then
    Except.ok (t.axi_ss.out_ports.get ⟨port, h⟩)
  else
    Except.error "out-of-range output port index"

/-- Embedding of the default `tile_base::run` (tile_base.hpp): an empty body,
`void run() {}`; it returns no value and performs no state change. -/
def tile_base.run (t : tile_base) : Unit × tile_base := ((), t)

/-- The serpentine (boustrophedon) successor of tile (x, y): row by row,
increasing x on even rows, decreasing x on odd rows, moving vertically at a
row's end. -/
def serpentine_succ (g : Geography) (x y : Nat) : Nat × Nat :=
  if y &&& 1 = 0 then
    if x < g.x_max then (x + 1, y) else (x, y + 1)
  else
    if 0 < x then (x - 1, y) else (x, y + 1)

/-- Whether tile (x, y) is the last tile of the serpentine order: it is on
the last row, at column 0 when that row is odd and at column x_max when it
is even. -/
def is_last_tile (g : Geography) (x y : Nat) : Bool :=
  y = g.y_max && x = (if g.y_max &&& 1 ≠ 0 then 0 else g.x_max)

/-- The 3-column, 2-row test geography used by the spec's serpentine
addressing example. -/
def geo32 : Geography := ⟨3, 2⟩

/-- A concrete cascade stream on the 3×2 geography, with its 7 channels all
empty. -/
def cs32 : cascade_stream geo32 := ⟨List.replicate 7 static_pipe.empty4, rfl⟩

/-- A concrete tile with one input port and one output port on its stream
switch. -/
def tb0 : tile_base := ⟨0, ⟨[static_pipe.empty4], [static_pipe.empty4]⟩⟩

/-- A concrete tile with one input port but two output ports, so a port
index can be invalid for inputs while valid for outputs. -/
def tb12 : tile_base :=
  ⟨1, ⟨[static_pipe.empty4], [static_pipe.empty4, static_pipe.empty4]⟩⟩

/-- Rewrites the bitwise test of the source, `y & 1`, into row parity. -/
theorem and_one_ne_zero_iff (y : Nat) : y &&& 1 ≠ 0 ↔ y % 2 = 1 := by
  rw [Nat.and_one_is_mod]
  omega

/-- C1: for every valid tile coordinate (x, y), the cascade-input index
computed by get_cascade_stream_in equals x_size * y + (x_max - x) when y is
odd and x_size * y + x when y is even; concretely, for x_size = 3,
y_size = 2, x_max = 2 the input indices are (0,0)→0, (1,0)→1, (2,0)→2,
(2,1)→3, (1,1)→4, (0,1)→5. -/
theorem get_cascade_stream_in_formula (g : Geography) (x y : Nat)
    (hx : x ≤ g.x_max) (hy : y < g.y_size) :
    get_cascade_stream_in g x y =
      g.x_size * y + (if Odd y then g.x_max - x else x) ∧
    (get_cascade_stream_in geo32 0 0 = 0 ∧
     get_cascade_stream_in geo32 1 0 = 1 ∧
     get_cascade_stream_in geo32 2 0 = 2 ∧
     get_cascade_stream_in geo32 2 1 = 3 ∧
     get_cascade_stream_in geo32 1 1 = 4 ∧
     get_cascade_stream_in geo32 0 1 = 5) := by
  refine ⟨?_, by decide⟩
  rcases Nat.mod_two_eq_zero_or_one y with h2 | h2 <;>
    simp [get_cascade_stream_in, Nat.and_one_is_mod, h2, Nat.odd_iff]

/-- Witness for C1 at tile (1, 1) of the 3×2 geography. -/
theorem get_cascade_stream_in_formula_witness :
    (1 ≤ geo32.x_max ∧ 1 < geo32.y_size) ∧
    (get_cascade_stream_in geo32 1 1 =
        geo32.x_size * 1 + (if Odd 1 then geo32.x_max - 1 else 1) ∧
     (get_cascade_stream_in geo32 0 0 = 0 ∧
      get_cascade_stream_in geo32 1 0 = 1 ∧
      get_cascade_stream_in geo32 2 0 = 2 ∧
      get_cascade_stream_in geo32 2 1 = 3 ∧
      get_cascade_stream_in geo32 1 1 = 4 ∧
      get_cascade_stream_in geo32 0 1 = 5)) :=
  ⟨⟨by decide, by decide⟩,
   get_cascade_stream_in_formula geo32 1 1 (by decide) (by decide)⟩

/-- C2: for every valid tile coordinate (x, y), the cascade-output index
computed by get_cascade_stream_out equals the cascade-input index of the
same tile plus 1, on even rows and on odd rows alike. -/
theorem get_cascade_stream_out_eq_in_succ (g : Geography) (x y : Nat)
    (hx : x ≤ g.x_max) (hy : y < g.y_size) :
    get_cascade_stream_out g x y = get_cascade_stream_in g x y + 1 := by
  unfold get_cascade_stream_in get_cascade_stream_out
  omega

/-- Witness for C2 at tile (2, 1) of the 3×2 geography. -/
theorem get_cascade_stream_out_eq_in_succ_witness :
    (2 ≤ geo32.x_max ∧ 1 < geo32.y_size) ∧
    get_cascade_stream_out geo32 2 1 = get_cascade_stream_in geo32 2 1 + 1 :=
  ⟨⟨by decide, by decide⟩,
   get_cascade_stream_out_eq_in_succ geo32 2 1 (by decide) (by decide)⟩

/-- C5: the cascade fabric's channel sequence has exactly
x_size * y_size + 1 slots, one more than the number of tiles; for the 3×2
geography that is 7 slots. -/
theorem cascade_stream_pipes_count (g : Geography) (cs : cascade_stream g) :
    cs.cascade_stream_pipes.length = g.x_size * g.y_size + 1 ∧
    (∀ cs2 : cascade_stream geo32, cs2.cascade_stream_pipes.length = 7) :=
  ⟨cs.size_eq, fun cs2 => cs2.size_eq.trans rfl⟩

/-- Witness for C5 on a concrete 3×2 cascade stream. -/
theorem cascade_stream_pipes_count_witness :
    cs32.cascade_stream_pipes.length = geo32.x_size * geo32.y_size + 1 ∧
    (∀ cs2 : cascade_stream geo32, cs2.cascade_stream_pipes.length = 7) :=
  cascade_stream_pipes_count geo32 cs32

/-- Helper: a row-major index with an in-row offset below the row width is
below the start of any later row. -/
theorem row_index_lt (s y1 y2 a : Nat) (ha : a < s) (h : y1 < y2) :
    s * y1 + a < s * y2 := by
  calc s * y1 + a < s * y1 + s := by omega
    _ = s * (y1 + 1) := by ring
    _ ≤ s * y2 := Nat.mul_le_mul_left s h

/-- Helper: the cascade-input index of a valid tile is below the number of
tiles. -/
theorem cascade_in_lt (g : Geography) (x y : Nat) (hxs : 0 < g.x_size)
    (hx : x ≤ g.x_max) (hy : y < g.y_size) :
    get_cascade_stream_in g x y < g.x_size * g.y_size := by
  have hmax : g.x_max = g.x_size - 1 := rfl
  unfold get_cascade_stream_in
  split <;> exact row_index_lt _ _ _ _ (by omega) hy

/-- C3: chain continuity: for every tile that is not the last tile of the
serpentine order, its cascade-output index equals the cascade-input index of
its successor tile in that order. -/
theorem serpentine_chain_continuity (g : Geography) (x y : Nat)
    (hxs : 0 < g.x_size) (hx : x ≤ g.x_max) (hy : y < g.y_size)
    (hlast : is_last_tile g x y = false) :
    get_cascade_stream_out g x y =
      get_cascade_stream_in g (serpentine_succ g x y).1
        (serpentine_succ g x y).2 := by
  have hmax : g.x_max = g.x_size - 1 := rfl
  have hmul : g.x_size * (y + 1) = g.x_size * y + g.x_size := by ring
  rcases Nat.mod_two_eq_zero_or_one y with h2 | h2
  · by_cases hxl : x < g.x_max
    · simp only [serpentine_succ, get_cascade_stream_out, get_cascade_stream_in,
        Nat.and_one_is_mod, h2, if_pos, if_neg, hxl, ite_true, ite_false]
      simp [h2, hxl]
      omega
    · simp only [serpentine_succ, get_cascade_stream_out, get_cascade_stream_in,
        Nat.and_one_is_mod]
      simp [h2, hxl, Nat.add_mod]
      omega
  · by_cases hx0 : 0 < x
    · simp only [serpentine_succ, get_cascade_stream_out, get_cascade_stream_in,
        Nat.and_one_is_mod]
      simp [h2, hx0]
      omega
    · simp only [serpentine_succ, get_cascade_stream_out, get_cascade_stream_in,
        Nat.and_one_is_mod]
      simp [h2, hx0, Nat.add_mod]
      omega

/-- Witness for C3 at tile (2, 0) of the 3×2 geography, whose serpentine
successor is tile (2, 1). -/
theorem serpentine_chain_continuity_witness :
    (0 < geo32.x_size ∧ 2 ≤ geo32.x_max ∧ 0 < geo32.y_size ∧
      is_last_tile geo32 2 0 = false) ∧
    get_cascade_stream_out geo32 2 0 =
      get_cascade_stream_in geo32 (serpentine_succ geo32 2 0).1
        (serpentine_succ geo32 2 0).2 :=
  ⟨⟨by decide, by decide, by decide, by decide⟩,
   serpentine_chain_continuity geo32 2 0 (by decide) (by decide) (by decide)
     (by decide)⟩

/-- C10: bounds safety of the cascade accessors: for every valid tile, the
cascade-input index lies in [0, x_size * y_size - 1], the cascade-output
index lies in [1, x_size * y_size], and both index within the bounds of the
cascade_stream_pipes array of length x_size * y_size + 1. -/
theorem cascade_index_bounds (g : Geography) (x y : Nat)
    (hxs : 0 < g.x_size) (hys : 0 < g.y_size)
    (hx : x ≤ g.x_max) (hy : y ≤ g.y_size - 1) :
    get_cascade_stream_in g x y ≤ g.x_size * g.y_size - 1 ∧
    1 ≤ get_cascade_stream_out g x y ∧
    get_cascade_stream_out g x y ≤ g.x_size * g.y_size ∧
    (∀ cs : cascade_stream g,
      get_cascade_stream_in g x y < cs.cascade_stream_pipes.length ∧
      get_cascade_stream_out g x y < cs.cascade_stream_pipes.length) := by
  have hy2 : y < g.y_size := by omega
  have hin := cascade_in_lt g x y hxs hx hy2
  have hout : get_cascade_stream_out g x y = get_cascade_stream_in g x y + 1 := by
    unfold get_cascade_stream_in get_cascade_stream_out
    omega
  refine ⟨by omega, by omega, by omega, fun cs => ?_⟩
  rw [cs.size_eq]
  omega

/-- Witness for C10 at tile (0, 1) of the 3×2 geography. -/
theorem cascade_index_bounds_witness :
    (0 < geo32.x_size ∧ 0 < geo32.y_size ∧ 0 ≤ geo32.x_max ∧
      1 ≤ geo32.y_size - 1) ∧
    (get_cascade_stream_in geo32 0 1 ≤ geo32.x_size * geo32.y_size - 1 ∧
     1 ≤ get_cascade_stream_out geo32 0 1 ∧
     get_cascade_stream_out geo32 0 1 ≤ geo32.x_size * geo32.y_size ∧
     (∀ cs : cascade_stream geo32,
       get_cascade_stream_in geo32 0 1 < cs.cascade_stream_pipes.length ∧
       get_cascade_stream_out geo32 0 1 < cs.cascade_stream_pipes.length)) :=
  ⟨⟨by decide, by decide, by decide, by decide⟩,
   cascade_index_bounds geo32 0 1 (by decide) (by decide) (by decide)
     (by decide)⟩

/-- Helper: a row-major decomposition with offsets below the row width is
unique. -/
theorem row_decompose_inj (s y1 y2 a1 a2 : Nat) (h1 : a1 < s) (h2 : a2 < s)
    (h : s * y1 + a1 = s * y2 + a2) : y1 = y2 ∧ a1 = a2 := by
  have hs : 0 < s := by omega
  have e1 : (s * y1 + a1) / s = y1 := by
    rw [Nat.mul_add_div hs, Nat.div_eq_of_lt h1, Nat.add_zero]
  have e2 : (s * y1 + a1) / s = y2 := by
    rw [h, Nat.mul_add_div hs, Nat.div_eq_of_lt h2, Nat.add_zero]
  have hy : y1 = y2 := by omega
  subst hy
  exact ⟨rfl, by omega⟩

/-- C4: the cascade-input index mapping is a bijection from the set of valid
tile coordinates \x7b0..x_max\x7d × \x7b0..y_size-1\x7d onto the index range
\x7b0, ..., x_size * y_size - 1\x7d: every tile is visited exactly once. -/
theorem serpentine_in_bijective (g : Geography) (hxs : 0 < g.x_size) :
    Set.BijOn (fun p : Nat × Nat => get_cascade_stream_in g p.1 p.2)
      {p : Nat × Nat | p.1 ≤ g.x_max ∧ p.2 < g.y_size}
      {i : Nat | i < g.x_size * g.y_size} := by
  have hmax : g.x_max = g.x_size - 1 := rfl
  refine ⟨?_, ?_, ?_⟩
  · rintro ⟨x, y⟩ ⟨hx, hy⟩
    exact cascade_in_lt g x y hxs hx hy
  · rintro ⟨x1, y1⟩ ⟨hx1, hy1⟩ ⟨x2, y2⟩ ⟨hx2, hy2⟩ heq
    simp only [get_cascade_stream_in] at heq
    have ha1 : (if y1 &&& 1 ≠ 0 then g.x_max - x1 else x1) < g.x_size := by
      split <;> omega
    have ha2 : (if y2 &&& 1 ≠ 0 then g.x_max - x2 else x2) < g.x_size := by
      split <;> omega
    obtain ⟨hyy, haa⟩ := row_decompose_inj g.x_size y1 y2 _ _ ha1 ha2 heq
    subst hyy
    have hxx : x1 = x2 := by
      rcases Nat.mod_two_eq_zero_or_one y1 with h2 | h2 <;>
        simp only [Nat.and_one_is_mod, h2] at haa <;> simp at haa <;> omega
    simp [hxx]
  · rintro i hi
    simp only [Set.mem_setOf_eq] at hi
    have hy : i / g.x_size < g.y_size := Nat.div_lt_of_lt_mul hi
    have ha : i % g.x_size < g.x_size := Nat.mod_lt _ hxs
    have hdm : g.x_size * (i / g.x_size) + i % g.x_size = i :=
      Nat.div_add_mod i g.x_size
    refine ⟨(if (i / g.x_size) &&& 1 ≠ 0 then g.x_max - i % g.x_size
              else i % g.x_size, i / g.x_size), ⟨?_, hy⟩, ?_⟩
    · dsimp only
      split <;> omega
    · simp only [get_cascade_stream_in]
      split <;> omega

/-- Witness for C4: the hypothesis holds and the bijection is realized on the
3×2 geography. -/
theorem serpentine_in_bijective_witness :
    0 < geo32.x_size ∧
    Set.BijOn (fun p : Nat × Nat => get_cascade_stream_in geo32 p.1 p.2)
      {p : Nat × Nat | p.1 ≤ geo32.x_max ∧ p.2 < geo32.y_size}
      {i : Nat | i < geo32.x_size * geo32.y_size} :=
  ⟨by decide, serpentine_in_bijective geo32 (by decide)⟩

/-- C6: the chain-start tile (0, 0) has cascade-input index 0, the chain-end
tile (at row y_max, column x_max on an even last row and 0 on an odd one)
has cascade-output index x_size * y_size, and neither extremal slot is the
input (respectively output) index of any other valid tile. -/
theorem chain_extremal_slots (g : Geography)
    (hxs : 0 < g.x_size) (hys : 0 < g.y_size) :
    get_cascade_stream_in g 0 0 = 0 ∧
    get_cascade_stream_out g (if g.y_max &&& 1 ≠ 0 then 0 else g.x_max)
      g.y_max = g.x_size * g.y_size ∧
    (∀ x y, x ≤ g.x_max → y < g.y_size → ¬(x = 0 ∧ y = 0) →
      get_cascade_stream_in g x y ≠ 0) ∧
    (∀ x y, x ≤ g.x_max → y < g.y_size →
      ¬(x = (if g.y_max &&& 1 ≠ 0 then 0 else g.x_max) ∧ y = g.y_max) →
      get_cascade_stream_out g x y ≠ g.x_size * g.y_size) := by
  have hmax : g.x_max = g.x_size - 1 := rfl
  have hym : g.y_max = g.y_size - 1 := rfl
  have htot : g.x_size * g.y_size = g.x_size * g.y_max + g.x_size := by
    rw [hym]
    have h1 : g.y_size - 1 + 1 = g.y_size := by omega
    calc g.x_size * g.y_size = g.x_size * (g.y_size - 1 + 1) := by rw [h1]
      _ = g.x_size * (g.y_size - 1) + g.x_size := by ring
  refine ⟨by simp [get_cascade_stream_in], ?_, ?_, ?_⟩
  · unfold get_cascade_stream_out
    rcases Nat.mod_two_eq_zero_or_one g.y_max with h2 | h2 <;>
      simp only [Nat.and_one_is_mod, h2] <;> simp <;> omega
  · intro x y hx hy hne
    unfold get_cascade_stream_in
    rcases Nat.eq_zero_or_pos y with hy0 | hy0
    · subst hy0
      simp only [Nat.and_one_is_mod]
      simp
      omega
    · have : g.x_size * 1 ≤ g.x_size * y := Nat.mul_le_mul_left _ hy0
      split <;> omega
  · intro x y hx hy hne heq
    unfold get_cascade_stream_out at heq
    rcases Nat.lt_or_ge y g.y_max with hylt | hyge
    · have hle : g.x_size * (y + 1) ≤ g.x_size * g.y_max :=
        Nat.mul_le_mul_left _ hylt
      have hmul : g.x_size * (y + 1) = g.x_size * y + g.x_size := by ring
      revert heq
      split <;> omega
    · have hyeq : y = g.y_max := by omega
      subst hyeq
      rcases Nat.mod_two_eq_zero_or_one g.y_max with h2 | h2 <;>
        simp only [Nat.and_one_is_mod, h2] at heq hne <;>
        simp at heq hne <;> omega

/-- Witness for C6 on the 3×2 geography. -/
theorem chain_extremal_slots_witness :
    (0 < geo32.x_size ∧ 0 < geo32.y_size) ∧
    (get_cascade_stream_in geo32 0 0 = 0 ∧
     get_cascade_stream_out geo32
       (if geo32.y_max &&& 1 ≠ 0 then 0 else geo32.x_max) geo32.y_max =
       geo32.x_size * geo32.y_size ∧
     (∀ x y, x ≤ geo32.x_max → y < geo32.y_size → ¬(x = 0 ∧ y = 0) →
       get_cascade_stream_in geo32 x y ≠ 0) ∧
     (∀ x y, x ≤ geo32.x_max → y < geo32.y_size →
       ¬(x = (if geo32.y_max &&& 1 ≠ 0 then 0 else geo32.x_max) ∧
          y = geo32.y_max) →
       get_cascade_stream_out geo32 x y ≠ geo32.x_size * geo32.y_size)) :=
  ⟨⟨by decide, by decide⟩, chain_extremal_slots geo32 (by decide) (by decide)⟩

/-- C7: calling tile_base::in or tile_base::out with a port index that is
not a valid input (respectively output) port index of the stream switch
fails with an out-of-range condition rather than returning an access
handle. -/
theorem port_access_out_of_range (t : tile_base) (port : Nat) :
    (t.axi_ss.in_ports.length ≤ port →
      ∃ e, t.in_port port = Except.error e) ∧
    (t.axi_ss.out_ports.length ≤ port →
      ∃ e, t.out_port port = Except.error e) := by
  constructor <;> intro h
  · unfold tile_base.in_port
    rw [dif_neg (by omega)]
    exact ⟨_, rfl⟩
  · unfold tile_base.out_port
    rw [dif_neg (by omega)]
    exact ⟨_, rfl⟩

/-- Witness for C7: on a switch with one input and two output ports, port
index 1 is invalid for inputs (though valid for outputs) and the input
accessor fails; on a one-input, one-output switch, port index 5 is invalid
for outputs and the output accessor fails. -/
theorem port_access_out_of_range_witness :
    (tb12.axi_ss.in_ports.length ≤ 1 ∧
      ∃ e, tb12.in_port 1 = Except.error e) ∧
    (tb0.axi_ss.out_ports.length ≤ 5 ∧
      ∃ e, tb0.out_port 5 = Except.error e) :=
  ⟨⟨by decide, (port_access_out_of_range tb12 1).1 (by decide)⟩,
   ⟨by decide, (port_access_out_of_range tb0 5).2 (by decide)⟩⟩

/-- Helper: both access modes of a write perform the same transformation
when they complete. -/
theorem write_eq (m : Mode) (p : static_pipe) (v : Int) :
    static_pipe.write m p v =
      if p.buffer.length < p.capacity then
        some ⟨p.capacity, p.buffer ++ [v]⟩ else none := by
  cases m <;> rfl

/-- Helper: both access modes of a read perform the same transformation when
they complete. -/
theorem read_eq (m : Mode) (p : static_pipe) :
    static_pipe.read m p =
      match p.buffer with
      | [] => none
      | v :: rest => some (v, ⟨p.capacity, rest⟩) := by
  cases m <;> rfl

/-- Helper: a successful sequence of writes appends exactly the written
elements, in order, to the buffer, and keeps the capacity. -/
theorem writeSeq_some (ops : List (Mode × Int)) (p s : static_pipe)
    (h : p.writeSeq ops = some s) :
    s.capacity = p.capacity ∧ s.buffer = p.buffer ++ ops.map Prod.snd := by
  induction ops generalizing p with
  | nil =>
    simp only [static_pipe.writeSeq, Option.some.injEq] at h
    subst h
    simp
  | cons op rest ih =>
    obtain ⟨m, v⟩ := op
    simp only [static_pipe.writeSeq] at h
    rw [write_eq] at h
    by_cases hc : p.buffer.length < p.capacity
    · rw [if_pos hc] at h
      simp only [Option.some_bind] at h
      obtain ⟨hc1, hb1⟩ := ih ⟨p.capacity, p.buffer ++ [v]⟩ h
      refine ⟨hc1, ?_⟩
      simp only [hb1, List.map_cons]
      simp
    · rw [if_neg hc] at h
      simp at h

/-- Helper: reading as many elements as the buffer holds returns the whole
buffer, in order, and leaves the channel empty. -/
theorem readSeq_all (modes : List Mode) (p : static_pipe)
    (h : modes.length = p.buffer.length) :
    p.readSeq modes = some (p.buffer, ⟨p.capacity, []⟩) := by
  induction modes generalizing p with
  | nil =>
    obtain ⟨c, b⟩ := p
    simp only [List.length_nil] at h
    have hb : b = [] := by
      cases b
      · rfl
      · simp at h
    subst hb
    simp [static_pipe.readSeq]
  | cons m rest ih =>
    obtain ⟨c, b⟩ := p
    cases b with
    | nil => simp at h
    | cons v bs =>
      simp only [static_pipe.readSeq, read_eq, Option.some_bind]
      rw [ih ⟨c, bs⟩ (by simpa using h)]
      simp

/-- C8: FIFO delivery on one channel: for every sequence of n successful
writes to a single channel starting empty, followed by n successful reads,
the reads return the written elements in exactly the written order, with no
element duplicated or dropped, whichever mix of blocking and non-blocking
modes the individual operations use. -/
theorem fifo_delivery (cap : Nat) (ops : List (Mode × Int))
    (modes : List Mode) (s : static_pipe)
    (hw : static_pipe.writeSeq ⟨cap, []⟩ ops = some s)
    (hn : modes.length = ops.length) :
    s.readSeq modes = some (ops.map Prod.snd, ⟨cap, []⟩) := by
  obtain ⟨hc, hb⟩ := writeSeq_some ops _ s hw
  have hlen : modes.length = s.buffer.length := by simp [hb, hn]
  rw [readSeq_all modes s hlen, hb, hc]
  simp

/-- Witness for C8: three writes of 1, 2, 3 in mixed modes, then three reads
in mixed modes, yield 1, 2, 3 in order. -/
theorem fifo_delivery_witness :
    (static_pipe.writeSeq ⟨4, []⟩
        [(Mode.blocking, 1), (Mode.nonblocking, 2), (Mode.blocking, 3)] =
        some ⟨4, [1, 2, 3]⟩ ∧
      ([Mode.nonblocking, Mode.blocking, Mode.blocking] : List Mode).length =
        ([(Mode.blocking, (1 : Int)), (Mode.nonblocking, 2),
          (Mode.blocking, 3)]).length) ∧
    static_pipe.readSeq ⟨4, [1, 2, 3]⟩
        [Mode.nonblocking, Mode.blocking, Mode.blocking] =
      some ([1, 2, 3], ⟨4, []⟩) :=
  ⟨⟨by decide, by decide⟩,
   fifo_delivery 4
     [(Mode.blocking, 1), (Mode.nonblocking, 2), (Mode.blocking, 3)]
     [Mode.nonblocking, Mode.blocking, Mode.blocking] ⟨4, [1, 2, 3]⟩
     (by decide) (by decide)⟩

/-- C9: the default tile_base::run is a no-op: it terminates, returns no
value, and leaves every component of the tile unchanged: the thread handle,
the stream switch instance, and every port queue of the switch. -/
theorem tile_base_run_noop (t : tile_base) :
    tile_base.run t = ((), t) ∧
    (tile_base.run t).2.thread = t.thread ∧
    (tile_base.run t).2.axi_ss = t.axi_ss ∧
    (tile_base.run t).2.axi_ss.in_ports = t.axi_ss.in_ports ∧
    (tile_base.run t).2.axi_ss.out_ports = t.axi_ss.out_ports :=
  ⟨rfl, rfl, rfl, rfl, rfl⟩

/-- Witness for C9 on a concrete tile. -/
theorem tile_base_run_noop_witness :
    tile_base.run tb0 = ((), tb0) ∧
    (tile_base.run tb0).2.thread = tb0.thread ∧
    (tile_base.run tb0).2.axi_ss = tb0.axi_ss ∧
    (tile_base.run tb0).2.axi_ss.in_ports = tb0.axi_ss.in_ports ∧
    (tile_base.run tb0).2.axi_ss.out_ports = tb0.axi_ss.out_ports :=
  tile_base_run_noop tb0

end TriSYCL
